/-
Verification of the AdversarialAISecuritySandbox orchestration design.

The repository ships the React frontend (`frontend/src/components/*.js`),
the architecture documents (`docs/architecture/*.md`), and the deployment
configuration (Dockerfiles, docker-compose, CI).  The Python backend
services (JobStore, ModelCache, Dispatcher/Worker, WebhookNotifier) are
referenced by the compose file and the documents but their source is not
part of the tree, so those components are modelled here from the design
document, as indicated on each definition.  Frontend behaviour is embedded
directly from the JavaScript source.
-/
import Mathlib

namespace Sandbox

/-! ## Job status state machine (design §4.2) -/

/-- Job lifecycle states as listed in design §4.2:
`queued`, `in_progress`, `completed`, `failed`, `cancelled`. -/
inductive JobStatus
  | queued
  | inProgress
  | completed
  | failed
  | cancelled
deriving DecidableEq, Fintype, Repr

/-- Operations that may touch a job's status: the dispatcher claiming it,
the worker finalizing it as completed or failed, and cooperative
cancellation. -/
inductive JobOp
  | claimJob
  | finishCompleted
  | finishFailed
  | cancel
deriving DecidableEq, Fintype, Repr

/-- Terminal states per design §4.2: `completed`, `failed`, `cancelled`. -/
def isTerminal : JobStatus → Bool
  | .completed => true
  | .failed => true
  | .cancelled => true
  | _ => false

/-- Modelled from the spec: the state machine of design §4.2 (the backend
job-store service that implements it is not under `src/`).  Transitions:
`queued → in_progress` on claim, `in_progress → completed/failed` on
finalization, `queued/in_progress → cancelled` on cancellation; every other
operation leaves the status unchanged, and no operation leaves a terminal
state. -/
def jobStep : JobStatus → JobOp → JobStatus
  | .queued, .claimJob => .inProgress
  | .queued, .cancel => .cancelled
  | .inProgress, .finishCompleted => .completed
  | .inProgress, .finishFailed => .failed
  | .inProgress, .cancel => .cancelled
  | s, _ => s

/-- The forward edges of the §4.2 state machine. -/
def forwardEdge : JobStatus → JobStatus → Bool
  | .queued, .inProgress => true
  | .queued, .cancelled => true
  | .inProgress, .completed => true
  | .inProgress, .failed => true
  | .inProgress, .cancelled => true
  | _, _ => false

/-! ## API document facts (docs/architecture/API_SPECIFICATION.md) -/

/-- From `docs/architecture/API_SPECIFICATION.md` §5.3.3 (line 316):
"Possible Statuses: `initiated`, `queued`, `in_progress`, `completed`,
`failed`, `cancelled`." -/
def possibleStatuses : List String :=
  ["initiated", "queued", "in_progress", "completed", "failed", "cancelled"]

/-- Shape of the documented 202 Accepted response of `POST /attacks/launch`
(API document §5.3.2). -/
structure LaunchAttackResponse where
  attackId : String
  status : String
  message : String
  estimatedCompletionTimeSeconds : Nat
deriving DecidableEq, Repr

/-- From `docs/architecture/API_SPECIFICATION.md` §5.3.2 (lines 284-292):
the documented response of a successful launch. -/
def documentedLaunchResponse : LaunchAttackResponse :=
  { attackId := "atk_nlp_xyz123abc"
    status := "initiated"
    message := "Attack initiated successfully. Results will be sent to the callback URL."
    estimatedCompletionTimeSeconds := 300 }

/-- The status set named by the spec sentence under comparison
("queued, in_progress, completed, failed, cancelled"); stated from the
spec's words for the refinement comparison with `possibleStatuses`. -/
def claimedStatuses : List String :=
  ["queued", "in_progress", "completed", "failed", "cancelled"]

/-! ## Frontend modality handling (frontend/src/components) -/

/-- An entry of the frontend's attack-method lookup. -/
structure AttackMethodEntry where
  id : String
  name : String
deriving DecidableEq, Repr

/-- From `AttackComponent.js` lines 25-30: the `attackMethodsByType` lookup.
The JavaScript object maps `NLP`, `CV` and `Time Series` to one-element
method lists and the empty-string key to `[]`; every other key reads as
`undefined`, which each use site coalesces to an empty list, so the
embedding returns `[]` outside the three modality keys. -/
def attackMethodsByType (t : String) : List AttackMethodEntry :=
  if t = "NLP" then [{ id := "textfooler", name := "TextFooler" }]
  else if t = "CV" then [{ id := "fgsm", name := "FGSM (Mock)" }]
  else if t = "Time Series" then [{ id := "noise_injection", name := "Noise Injection (Mock)" }]
  else []

/-- From `ModelManagementComponent.js` lines 117-121: the options of the
model-type select used at registration (`Time Series` is the code's label
for the TimeSeries modality). -/
def modelTypeOptions : List String :=
  ["NLP", "CV", "Time Series"]

/-- The three input-rendering branches of `renderInputArea`. -/
inductive InputAreaKind
  | imageUpload
  | timeSeriesText
  | nlpTextarea
deriving DecidableEq, Repr

/-- From `AttackComponent.js` lines 212-250: `renderInputArea` switches on
the selected model type; `CV` renders a file upload, `Time Series` a
comma-separated text input, and `NLP` (the default case) a textarea. -/
def renderInputAreaKind (t : String) : InputAreaKind :=
  if t = "CV" then .imageUpload
  else if t = "Time Series" then .timeSeriesText
  else .nlpTextarea

/-- The three input-processing branches of `handleLaunchAttack`. -/
inductive ProcessedKind
  | imageBase64
  | numberSeq
  | rawText
deriving DecidableEq, Repr

/-- From `AttackComponent.js` lines 124-143: `handleLaunchAttack` processes
the input as a base64 image for `CV`, as a parsed number sequence for
`Time Series`, and as raw text otherwise. -/
def processKind (t : String) : ProcessedKind :=
  if t = "CV" then .imageBase64
  else if t = "Time Series" then .numberSeq
  else .rawText

/-! ## Frontend status polling (AttackComponent.js) -/

/-- The observable effect of one iteration of the polling loop:
whether the interval is cleared, whether the results endpoint is queried,
and whether an error is displayed. -/
structure PollAction where
  stopPolling : Bool
  fetchResults : Bool
  errorSet : Bool
deriving DecidableEq, Repr

/-- From `AttackComponent.js` lines 68-96 (`pollAttackStatus`): `none`
stands for a fetch error (non-ok response or network failure), which clears
the interval and sets an error; a fetched status of `completed` clears the
interval and queries the results endpoint; `failed` clears the interval
and sets an error; any other status leaves the interval running. -/
def pollStep : Option String → PollAction
  | none => { stopPolling := true, fetchResults := false, errorSet := true }
  | some s =>
    if s = "completed" then { stopPolling := true, fetchResults := true, errorSet := false }
    else if s = "failed" then { stopPolling := true, fetchResults := false, errorSet := true }
    else { stopPolling := false, fetchResults := false, errorSet := false }

/-! ## ModelCache (design §4.1) -/

/-- From `src/unnamed/part_002` (docker-compose.yml, lines 134 and 149):
the api-gateway and model-service environments set
`MODEL_CACHE_CAPACITY: 5`. -/
def MODEL_CACHE_CAPACITY : Nat := 5

/-- A cached model handle: the model identifier and its pin (reference)
count. -/
structure CacheEntry where
  modelId : String
  refs : Nat
deriving DecidableEq, Repr

/-- The cache operations of the §4.1 contract. -/
inductive CacheOp
  | acquire (modelId : String)
  | release (modelId : String)
deriving DecidableEq, Repr

/-- First entry with the given model id, scanning from most recent. -/
def lookupEntry : List CacheEntry → String → Option CacheEntry
  | [], _ => none
  | e :: rest, m => if e.modelId = m then some e else lookupEntry rest m

/-- Remove the first entry with the given model id. -/
def eraseEntry : List CacheEntry → String → List CacheEntry
  | [], _ => []
  | e :: rest, m => if e.modelId = m then rest else e :: eraseEntry rest m

/-- Remove the least-recently-used entry with zero references: entries are
kept most-recent first, so the eviction candidate is the last zero-ref
entry; `none` when every entry is pinned. -/
def evictLRU : List CacheEntry → Option (List CacheEntry)
  | [] => none
  | e :: rest =>
    match evictLRU rest with
    | some rest' => some (e :: rest')
    | none => if e.refs = 0 then some rest else none

/-- Modelled from the spec: `ModelCache.acquire` of design §4.1 (the
model-service source is not under `src/`).  The entry list is kept in
recency order, most recent first, under a fixed capacity `cap`.  A cached
model moves to the front with its reference count incremented; an uncached
model is inserted while under capacity; at capacity the least-recently-used
zero-reference entry is evicted, and if every entry is pinned the acquire
fails (`CacheExhausted`) leaving the cache unchanged. -/
def acquireEntries (cap : Nat) (l : List CacheEntry) (m : String) : List CacheEntry :=
  match lookupEntry l m with
  | some e => { modelId := m, refs := e.refs + 1 } :: eraseEntry l m
  | none =>
    if l.length < cap then { modelId := m, refs := 1 } :: l
    else
      match evictLRU l with
      | some l2 => { modelId := m, refs := 1 } :: l2
      | none => l

/-- Modelled from the spec: `ModelCache.release` of design §4.1 decrements
the entry's reference count and does not update recency. -/
def releaseEntries (l : List CacheEntry) (m : String) : List CacheEntry :=
  l.map (fun e => if e.modelId = m then { e with refs := e.refs - 1 } else e)

/-- One cache operation on the entry list. -/
def cacheStep (cap : Nat) (l : List CacheEntry) : CacheOp → List CacheEntry
  | .acquire m => acquireEntries cap l m
  | .release m => releaseEntries l m

/-- Run a sequence of cache operations from the empty cache. -/
def runCache (cap : Nat) (ops : List CacheOp) : List CacheEntry :=
  ops.foldl (cacheStep cap) []

/-! ## Jobs, worker loop and webhook delivery (design §3, §4.3, §4.4) -/

/-- The completion payload of a job: original and adversarial predictions
and the computed success flag. -/
structure AttackResult where
  originalPrediction : String
  adversarialPrediction : String
  attackSuccess : Bool
deriving DecidableEq, Repr

/-- Modelled from the spec: the AttackJob record of design §3 (the backend
job store is not under `src/`). -/
structure Job where
  id : String
  modelId : String
  methodId : String
  targetLabel : Option String
  callbackUrl : Option String
  status : JobStatus
  result : Option AttackResult
  failureReason : Option String
  webhookDeliveryFailed : Bool
deriving DecidableEq, Repr

/-- A WebhookDeliveryAttempt record of design §3: job id, attempt number
and outcome. -/
structure DeliveryAttempt where
  jobId : String
  attemptNumber : Nat
  success : Bool
deriving DecidableEq, Repr

/-- Modelled from the spec: the WebhookNotifier retry loop of design §4.4
(the webhook service source is not under `src/`).  Attempt `k` succeeds
exactly when `outcomes k`; the loop records one `DeliveryAttempt` per
attempt and stops on the first success or when the attempt budget `fuel`
runs out. -/
def notifyGo (jobId : String) (outcomes : Nat → Bool) : Nat → Nat → List DeliveryAttempt
  | _, 0 => []
  | k, fuel + 1 =>
    if outcomes k then [{ jobId := jobId, attemptNumber := k, success := true }]
    else { jobId := jobId, attemptNumber := k, success := false }
      :: notifyGo jobId outcomes (k + 1) fuel

/-- Deliver the completion event for a job with the configured maximum
number of attempts, numbering attempts from 1. -/
def runNotify (jobId : String) (maxAttempts : Nat) (outcomes : Nat → Bool) :
    List DeliveryAttempt :=
  notifyGo jobId outcomes 1 maxAttempts

/-- Modelled from the spec: design §4.4 — when every attempt fails the job
record is annotated with `webhook_delivery_failed`, and the job's own
status is untouched by delivery. -/
def notifyJob (j : Job) (maxAttempts : Nat) (outcomes : Nat → Bool) :
    Job × List DeliveryAttempt :=
  let attempts := runNotify j.id maxAttempts outcomes
  ({ j with webhookDeliveryFailed :=
      j.webhookDeliveryFailed || !attempts.any DeliveryAttempt.success },
   attempts)

/-- Modelled from the spec: the success criteria of design §4.2 —
untargeted: the prediction label changed; targeted: the adversarial
prediction equals the target label. -/
def attackSuccess (target : Option String) (orig adv : String) : Bool :=
  match target with
  | none => adv != orig
  | some t => adv == t

/-- Modelled from the spec: finalizing a job as completed populates the
result payload with the compared predictions and the computed
`attack_success`. -/
def finalizeCompleted (j : Job) (orig adv : String) : Job :=
  { j with status := JobStatus.completed,
           result := some { originalPrediction := orig,
                            adversarialPrediction := adv,
                            attackSuccess := attackSuccess j.targetLabel orig adv } }

/-- Modelled from the spec: finalizing a job as failed records the failure
reason verbatim. -/
def finalizeFailed (j : Job) (reason : String) : Job :=
  { j with status := JobStatus.failed, failureReason := some reason }

/-- Outcome of invoking the attack strategy, an excluded collaborator. -/
inductive StrategyOutcome
  | ok (orig adv : String)
  | err (reason : String)
deriving DecidableEq, Repr

/-- The webhook notifications enqueued after finalization: one per
supplied callback URL. -/
def pendingNotifications (j : Job) : List String :=
  match j.callbackUrl with
  | some u => [u]
  | none => []

/-- Modelled from the spec: the worker loop of design §4.3 with idempotent
finalization — a redelivered job already in a terminal state is detected
and no-oped (returned unchanged, with no webhook notification); otherwise
the worker claims the job, finalizes it from the strategy outcome, and
enqueues a notification when a callback URL is present. -/
def workerDeliver (j : Job) (outcome : StrategyOutcome) : Job × List String :=
  if isTerminal j.status then (j, [])
  else
    let claimed := { j with status := JobStatus.inProgress }
    let fin :=
      match outcome with
      | .ok orig adv => finalizeCompleted claimed orig adv
      | .err reason => finalizeFailed claimed reason
    (fin, pendingNotifications fin)

/-- An already-terminal job used as a concrete redelivery input. -/
def doneJob : Job :=
  { id := "job-7", modelId := "default-sentiment-model", methodId := "textfooler",
    targetLabel := none, callbackUrl := some "http://listener/webhook-receiver",
    status := JobStatus.completed, result := none, failureReason := none,
    webhookDeliveryFailed := false }

/-! ## Submission validation (design §4.2, §7) -/

/-- The closed modality set of design §3. -/
inductive Modality
  | NLP
  | CV
  | TimeSeries
deriving DecidableEq, Repr

/-- Model status per design §3: active, deprecated or processing. -/
inductive ModelStatus
  | active
  | deprecated
  | processing
deriving DecidableEq, Repr

/-- A registered model as the validator sees it. -/
structure RegisteredModel where
  id : String
  modality : Modality
  modelStatus : ModelStatus
deriving DecidableEq, Repr

/-- A registered attack method with its compatible modalities. -/
structure AttackMethodSpec where
  id : String
  compatible : List Modality
deriving DecidableEq, Repr

/-- A submitted input payload: text, raw image bytes, or a numeric
sequence. -/
inductive Payload
  | text (s : String)
  | image (bytes : List Nat)
  | numseq (xs : List Int)
deriving DecidableEq, Repr

/-- A submission request per design §6. -/
structure Submission where
  modelId : String
  methodId : String
  payload : Payload
  targetLabel : Option String
  callbackUrl : Option String
deriving DecidableEq, Repr

/-- Synchronous submission failure per design §7. -/
inductive SubmissionError
  | invalidRequest
deriving DecidableEq, Repr

/-- The registries and job store visible to submission. -/
structure Env where
  models : List RegisteredModel
  methods : List AttackMethodSpec
  jobs : List Job
deriving DecidableEq, Repr

/-- Look up a model by id. -/
def findModel (env : Env) (id : String) : Option RegisteredModel :=
  env.models.find? (fun m => m.id == id)

/-- Look up an attack method by id. -/
def findMethod (env : Env) (id : String) : Option AttackMethodSpec :=
  env.methods.find? (fun m => m.id == id)

/-- Modelled from the spec: the payload must match the modality's expected
shape — text for NLP, decodable image bytes for CV (the concrete image
decoder is an excluded collaborator, passed in as `decode`), and a numeric
sequence for TimeSeries. -/
def payloadMatches (decode : List Nat → Bool) : Modality → Payload → Bool
  | .NLP, .text _ => true
  | .CV, .image bytes => decode bytes
  | .TimeSeries, .numseq _ => true
  | _, _ => false

/-- The job record created by an accepted submission: status `queued`. -/
def mkJob (newId : String) (s : Submission) : Job :=
  { id := newId, modelId := s.modelId, methodId := s.methodId,
    targetLabel := s.targetLabel, callbackUrl := s.callbackUrl,
    status := JobStatus.queued, result := none, failureReason := none,
    webhookDeliveryFailed := false }

/-- Modelled from the spec: submission validation of design §4.2 (the
api-gateway/attack-service source is not under `src/`).  The model must
exist and be active, the attack method must be registered and compatible
with the model's modality, and the payload must match the modality's
shape; any violation fails synchronously with `InvalidRequest`, creating
no job record and issuing no job id.  An accepted submission appends a
`queued` job and returns its id. -/
def submit (decode : List Nat → Bool) (env : Env) (s : Submission) (newId : String) :
    Except SubmissionError String × Env :=
  match findModel env s.modelId with
  | none => (.error .invalidRequest, env)
  | some m =>
    if m.modelStatus ≠ ModelStatus.active then (.error .invalidRequest, env)
    else
      match findMethod env s.methodId with
      | none => (.error .invalidRequest, env)
      | some meth =>
        if m.modality ∉ meth.compatible then (.error .invalidRequest, env)
        else if payloadMatches decode m.modality s.payload = false then
          (.error .invalidRequest, env)
        else (.ok newId, { env with jobs := env.jobs ++ [mkJob newId s] })

/-- An environment with nothing registered. -/
def emptyEnv : Env := { models := [], methods := [], jobs := [] }

/-- A submission naming a nonexistent model (the §8 scenario). -/
def badSubmission : Submission :=
  { modelId := "nonexistent-model", methodId := "textfooler",
    payload := Payload.text "hello", targetLabel := none, callbackUrl := none }

/-! ## Time Series input parsing (AttackComponent.js lines 131-140) -/

/-- Mirror of the JavaScript `input.split(',')` on the character list: an
empty input yields the single empty token, and a trailing comma yields a
trailing empty token. -/
def splitComma : List Char → List (List Char)
  | [] => [[]]
  | c :: rest =>
    if c = ',' then [] :: splitComma rest
    else
      match splitComma rest with
      | [] => [[c]]
      | t :: ts => (c :: t) :: ts

/-- Strip whitespace from both ends, as `Number` does to its argument. -/
def trimChars (cs : List Char) : List Char :=
  ((cs.dropWhile Char.isWhitespace).reverse.dropWhile Char.isWhitespace).reverse

/-- Value of a digit string, most significant first. -/
def digitsVal (cs : List Char) : Nat :=
  cs.foldl (fun n c => 10 * n + (c.toNat - 48)) 0

/-- Parse the optional exponent suffix of a decimal literal: empty means
exponent 0; otherwise `e`/`E`, an optional sign and a nonempty digit run
must consume the rest. -/
def parseExpPart : List Char → Option Int
  | [] => some 0
  | c :: rest =>
    if c = 'e' ∨ c = 'E' then
      match rest with
      | '+' :: ds =>
        if ds ≠ [] ∧ ds.all Char.isDigit then some ((digitsVal ds : Int)) else none
      | '-' :: ds =>
        if ds ≠ [] ∧ ds.all Char.isDigit then some (-(digitsVal ds : Int)) else none
      | ds =>
        if ds ≠ [] ∧ ds.all Char.isDigit then some ((digitsVal ds : Int)) else none
    else none

/-- Parse the integer-and-fraction part of a decimal literal, returning its
value and the unconsumed rest; at least one digit must be present. -/
def parseMantissa (cs : List Char) : Option (ℚ × List Char) :=
  let d1 := cs.takeWhile Char.isDigit
  let r1 := cs.dropWhile Char.isDigit
  match r1 with
  | '.' :: r2 =>
    let d2 := r2.takeWhile Char.isDigit
    let r3 := r2.dropWhile Char.isDigit
    if d1 = [] ∧ d2 = [] then none
    else some ((digitsVal d1 : ℚ) + (digitsVal d2 : ℚ) / (10 : ℚ) ^ d2.length, r3)
  | _ => if d1 = [] then none else some ((digitsVal d1 : ℚ), r1)

/-- Parse an unsigned decimal literal with optional exponent. -/
def parseUnsignedNum (cs : List Char) : Option ℚ :=
  match parseMantissa cs with
  | none => none
  | some (m, r) =>
    match parseExpPart r with
    | none => none
    | some e => some (m * (10 : ℚ) ^ e)

/-- Parse a decimal literal with optional leading sign. -/
def parseSignedNum : List Char → Option ℚ
  | '+' :: rest => parseUnsignedNum rest
  | '-' :: rest => Option.map Neg.neg (parseUnsignedNum rest)
  | cs => parseUnsignedNum cs

/-- Models the JavaScript `Number(string)` coercion on the decimal-literal
inputs the Time Series field carries: the string is trimmed, an empty
remainder coerces to `0` (the behaviour the claim turns on), a signed
decimal literal with optional exponent yields its value, and anything else
is `NaN`, encoded as `none`.  (Hex/binary/`Infinity` literals, accepted by
the full JavaScript grammar, do not occur in comma-separated numeric
input and are left out.) -/
def jsNumberChars (cs : List Char) : Option ℚ :=
  let t := trimChars cs
  if t = [] then some 0 else parseSignedNum t

/-- `Number` applied to a Lean string. -/
def jsNumber (s : String) : Option ℚ :=
  jsNumberChars s.toList

/-- From `AttackComponent.js` lines 131-140 and 145-148: the Time Series
branch splits the input on commas and maps each token through `Number`; if
some token is `NaN` the submission is rejected, otherwise the numeric
sequence is submitted.  (The later `!processedInput` emptiness check never
rejects this branch: a JavaScript array — even `[0]` — is truthy.) -/
def processTimeSeries (input : String) : Option (List ℚ) :=
  let xs := (splitComma input.toList).map jsNumberChars
  if xs.all Option.isSome then some (xs.filterMap id) else none

/-! ## Theorems -/

theorem eraseEntry_length (l : List CacheEntry) (m : String) (e : CacheEntry)
    (h : lookupEntry l m = some e) : (eraseEntry l m).length + 1 = l.length := by
  induction l with
  | nil => simp [lookupEntry] at h
  | cons a rest ih =>
    by_cases ha : a.modelId = m
    · simp [eraseEntry, ha]
    · simp only [lookupEntry, if_neg ha] at h
      simp only [eraseEntry, if_neg ha, List.length_cons]
      have := ih h
      omega

theorem evictLRU_length (l l2 : List CacheEntry) (h : evictLRU l = some l2) :
    l2.length + 1 = l.length := by
  induction l generalizing l2 with
  | nil => simp [evictLRU] at h
  | cons a rest ih =>
    unfold evictLRU at h
    split at h
    next rest2 hev =>
      injection h with h2
      subst h2
      simp only [List.length_cons]
      have := ih rest2 hev
      omega
    next hev =>
      split at h
      next hz =>
        injection h with h2
        subst h2
        simp
      next hz => exact Option.noConfusion h

theorem evictLRU_keeps_pinned (l l2 : List CacheEntry) (e : CacheEntry)
    (h : evictLRU l = some l2) (he : e ∈ l) (hr : 0 < e.refs) : e ∈ l2 := by
  induction l generalizing l2 with
  | nil => simp at he
  | cons a rest ih =>
    unfold evictLRU at h
    split at h
    next rest2 hev =>
      injection h with h2
      subst h2
      rcases List.mem_cons.mp he with rfl | hmem
      · exact List.mem_cons_self _ _
      · exact List.mem_cons_of_mem _ (ih rest2 hev hmem)
    next hev =>
      split at h
      next hz =>
        injection h with h2
        subst h2
        rcases List.mem_cons.mp he with rfl | hmem
        · omega
        · exact hmem
      next hz => exact Option.noConfusion h

theorem mem_eraseEntry (l : List CacheEntry) (m : String) (e : CacheEntry)
    (he : e ∈ l) (hm : e.modelId ≠ m) : e ∈ eraseEntry l m := by
  induction l with
  | nil => simp at he
  | cons a rest ih =>
    by_cases ha : a.modelId = m
    · simp only [eraseEntry, if_pos ha]
      rcases List.mem_cons.mp he with rfl | hmem
      · exact absurd ha hm
      · exact hmem
    · simp only [eraseEntry, if_neg ha]
      rcases List.mem_cons.mp he with rfl | hmem
      · exact List.mem_cons_self _ _
      · exact List.mem_cons_of_mem _ (ih hmem)

theorem cacheStep_length (cap : Nat) (l : List CacheEntry) (op : CacheOp)
    (h : l.length ≤ cap) : (cacheStep cap l op).length ≤ cap := by
  cases op with
  | release m => simpa [cacheStep, releaseEntries] using h
  | acquire m =>
    simp only [cacheStep, acquireEntries]
    split
    next e2 hl =>
      have := eraseEntry_length l m e2 hl
      simp only [List.length_cons]
      omega
    next hl =>
      split
      next hlt => simp only [List.length_cons]; omega
      next hlt =>
        split
        next l2 hev =>
          have := evictLRU_length l l2 hev
          simp only [List.length_cons]
          omega
        next hev => exact h

theorem cacheStep_keeps_pinned (cap : Nat) (l : List CacheEntry) (op : CacheOp)
    (e : CacheEntry) (he : e ∈ l) (hr : 0 < e.refs) :
    e.modelId ∈ (cacheStep cap l op).map CacheEntry.modelId := by
  cases op with
  | release m =>
    simp only [cacheStep, releaseEntries]
    refine List.mem_map.mpr
      ⟨if e.modelId = m then { e with refs := e.refs - 1 } else e,
       List.mem_map_of_mem _ he, ?_⟩
    by_cases hem : e.modelId = m <;> simp [hem]
  | acquire m =>
    simp only [cacheStep, acquireEntries]
    split
    next e2 hl =>
      by_cases hem : e.modelId = m
      · simp [hem]
      · exact List.mem_cons_of_mem _
          (List.mem_map_of_mem _ (mem_eraseEntry l m e he hem))
    next hl =>
      split
      next hlt => exact List.mem_cons_of_mem _ (List.mem_map_of_mem _ he)
      next hlt =>
        split
        next l2 hev =>
          exact List.mem_cons_of_mem _
            (List.mem_map_of_mem _ (evictLRU_keeps_pinned l l2 e hev he hr))
        next hev => exact List.mem_map_of_mem _ he

theorem runCache_length (cap : Nat) (ops : List CacheOp) :
    (runCache cap ops).length ≤ cap := by
  suffices h : ∀ l : List CacheEntry, l.length ≤ cap →
      (ops.foldl (cacheStep cap) l).length ≤ cap by
    exact h [] (by simp)
  induction ops with
  | nil => intro l hl; exact hl
  | cons op rest ih =>
    intro l hl
    exact ih _ (cacheStep_length cap l op hl)

/-- C2: `MODEL_CACHE_CAPACITY` defaults to 5; running any sequence of
acquire/release operations from the empty cache keeps at most `cap` loaded
handles; and a pinned entry (nonzero reference count) survives every cache
operation — it is never the one evicted. -/
theorem modelCache_capacity_and_pinning :
    MODEL_CACHE_CAPACITY = 5 ∧
    (∀ (cap : Nat) (ops : List CacheOp), (runCache cap ops).length ≤ cap) ∧
    (∀ (cap : Nat) (l : List CacheEntry) (op : CacheOp) (e : CacheEntry),
      e ∈ l → 0 < e.refs →
      e.modelId ∈ (cacheStep cap l op).map CacheEntry.modelId) :=
  ⟨rfl, runCache_length, fun cap l op e he hr => cacheStep_keeps_pinned cap l op e he hr⟩

/-- C2 witness: with capacity 1 and model `a` pinned, acquiring model `b`
does not evict `a` (the §8 capacity-1 scenario). -/
theorem modelCache_capacity_and_pinning_witness :
    (⟨"a", 1⟩ : CacheEntry) ∈ [(⟨"a", 1⟩ : CacheEntry)] ∧
    0 < (⟨"a", 1⟩ : CacheEntry).refs ∧
    "a" ∈ (cacheStep 1 [⟨"a", 1⟩] (CacheOp.acquire "b")).map CacheEntry.modelId :=
  ⟨by decide, by decide,
   modelCache_capacity_and_pinning.2.2 1 [⟨"a", 1⟩] (CacheOp.acquire "b") ⟨"a", 1⟩
     (by decide) (by decide)⟩

theorem jobStep_of_terminal (s : JobStatus) (op : JobOp)
    (h : isTerminal s = true) : jobStep s op = s := by
  revert h; cases s <;> cases op <;> decide

/-- C1: for every attack job and every sequence of operations, the status
only moves along the forward edges of the §4.2 state machine (or stays
put), and once the status is terminal no sequence of operations changes it
again. -/
theorem job_status_forward_only :
    (∀ (s : JobStatus) (op : JobOp),
      jobStep s op = s ∨ forwardEdge s (jobStep s op) = true) ∧
    (∀ (s : JobStatus) (ops : List JobOp),
      isTerminal s = true → ops.foldl jobStep s = s) := by
  constructor
  · decide
  · intro s ops h
    induction ops with
    | nil => rfl
    | cons op rest ih =>
      simpa [List.foldl, jobStep_of_terminal s op h] using ih

/-- C1 witness: a completed job is unchanged by a further claim and
cancellation. -/
theorem job_status_forward_only_witness :
    isTerminal JobStatus.completed = true ∧
    [JobOp.claimJob, JobOp.cancel].foldl jobStep JobStatus.completed
      = JobStatus.completed :=
  ⟨by decide,
   job_status_forward_only.2 JobStatus.completed [JobOp.claimJob, JobOp.cancel] (by decide)⟩

/-- C7 counterexample: the API document's launch response carries status
`initiated`, a documented possible status that is outside the claim's set
`queued, in_progress, completed, failed, cancelled` and differs from
`queued`. -/
theorem launch_status_counterexample :
    documentedLaunchResponse.status ∈ possibleStatuses ∧
    documentedLaunchResponse.status ∉ claimedStatuses ∧
    documentedLaunchResponse.status ≠ "queued" := by
  decide

/-- C7 (amended): the documented launch response returns a job id together
with the initial status, which the API reports as `initiated`; the
documented set of observable statuses is exactly `initiated` together with
`queued, in_progress, completed, failed, cancelled`. -/
theorem launch_response_status_set :
    documentedLaunchResponse.attackId = "atk_nlp_xyz123abc" ∧
    documentedLaunchResponse.status = "initiated" ∧
    documentedLaunchResponse.status ∈ possibleStatuses ∧
    possibleStatuses = "initiated" :: claimedStatuses := by
  decide

/-- C8: the registration select offers exactly the three modality values
`NLP`, `CV`, `Time Series`; the attack-method lookup is nonempty precisely
on these three; and input rendering and input processing send the three
modalities to three pairwise distinct branches. -/
theorem modality_closed_set :
    modelTypeOptions = ["NLP", "CV", "Time Series"] ∧
    (∀ t : String, attackMethodsByType t ≠ [] ↔ t ∈ modelTypeOptions) ∧
    modelTypeOptions.map renderInputAreaKind
      = [.nlpTextarea, .imageUpload, .timeSeriesText] ∧
    (modelTypeOptions.map renderInputAreaKind).Nodup ∧
    modelTypeOptions.map processKind = [.rawText, .imageBase64, .numberSeq] ∧
    (modelTypeOptions.map processKind).Nodup := by
  refine ⟨rfl, ?_, by decide, by decide, by decide, by decide⟩
  intro t
  by_cases h1 : t = "NLP"
  · subst h1; simp [attackMethodsByType, modelTypeOptions]
  by_cases h2 : t = "CV"
  · subst h2; simp [attackMethodsByType, modelTypeOptions]
  by_cases h3 : t = "Time Series"
  · subst h3; simp [attackMethodsByType, modelTypeOptions]
  simp [attackMethodsByType, modelTypeOptions, h1, h2, h3]

/-- C9: the polling loop queries the results endpoint exactly when the
fetched status is `completed`; it stops exactly when the status is
`completed` or `failed` or the fetch itself errored; in particular a
`cancelled` status leaves the interval running. -/
theorem poll_loop_behaviour :
    (∀ r : Option String,
      ((pollStep r).fetchResults = true ↔ r = some "completed") ∧
      ((pollStep r).stopPolling = true ↔
        (r = none ∨ r = some "completed" ∨ r = some "failed"))) ∧
    pollStep (some "cancelled")
      = { stopPolling := false, fetchResults := false, errorSet := false } := by
  refine ⟨?_, by decide⟩
  intro r
  cases r with
  | none => simp [pollStep]
  | some s =>
    by_cases h1 : s = "completed"
    · subst h1; simp [pollStep]
    by_cases h2 : s = "failed"
    · subst h2; simp [pollStep]
    simp [pollStep, h1, h2]

theorem notifyGo_length (jobId : String) (outcomes : Nat → Bool) :
    ∀ (fuel k : Nat), (notifyGo jobId outcomes k fuel).length ≤ fuel := by
  intro fuel
  induction fuel with
  | zero => intro k; simp [notifyGo]
  | succ n ih =>
    intro k
    by_cases h : outcomes k = true
    · simp [notifyGo, h]
    · simp only [notifyGo, Bool.not_eq_true] at h ⊢
      rw [if_neg (by simp [h])]
      simp only [List.length_cons]
      exact Nat.succ_le_succ (ih (k + 1))

theorem notifyGo_numbering (jobId : String) (outcomes : Nat → Bool) :
    ∀ (fuel k : Nat), (notifyGo jobId outcomes k fuel).map DeliveryAttempt.attemptNumber
      = List.range' k (notifyGo jobId outcomes k fuel).length := by
  intro fuel
  induction fuel with
  | zero => intro k; simp [notifyGo]
  | succ n ih =>
    intro k
    by_cases h : outcomes k = true
    · simp [notifyGo, h, List.range']
    · simp only [notifyGo, Bool.not_eq_true] at h ⊢
      rw [if_neg (by simp [h])]
      simp only [List.map_cons, List.length_cons, List.range']
      exact congrArg (k :: ·) (ih (k + 1))

/-- C3: webhook delivery runs at most `maxAttempts` attempts, each attempt
is recorded as exactly one consecutively-numbered `DeliveryAttempt`, the
job's status is unchanged by delivery regardless of the outcomes, and in
the §8 scenario (two failures then a success, budget 5) exactly three
attempt records exist. -/
theorem webhook_retry_bounded_status_independent :
    (∀ (jobId : String) (maxAttempts : Nat) (outcomes : Nat → Bool),
      (runNotify jobId maxAttempts outcomes).length ≤ maxAttempts ∧
      (runNotify jobId maxAttempts outcomes).map DeliveryAttempt.attemptNumber
        = List.range' 1 (runNotify jobId maxAttempts outcomes).length) ∧
    (∀ (j : Job) (maxAttempts : Nat) (outcomes : Nat → Bool),
      (notifyJob j maxAttempts outcomes).1.status = j.status) ∧
    (runNotify "job-1" 5 (fun k => decide (3 ≤ k))).map
        (fun a => (a.attemptNumber, a.success))
      = [(1, false), (2, false), (3, true)] := by
  refine ⟨?_, ?_, by decide⟩
  · intro jobId maxAttempts outcomes
    exact ⟨notifyGo_length jobId outcomes maxAttempts 1,
           notifyGo_numbering jobId outcomes maxAttempts 1⟩
  · intro j maxAttempts outcomes
    rfl

/-- C4: a submission whose model is unregistered or inactive, whose method
is unregistered or incompatible with the model's modality, or whose
payload does not match the modality's shape, fails synchronously with
`InvalidRequest` and leaves the environment (in particular the job store)
unchanged — no job id is issued. -/
theorem invalid_submission_rejected :
    ∀ (decode : List Nat → Bool) (env : Env) (s : Submission) (newId : String),
      (findModel env s.modelId = none ∨
       (∃ m, findModel env s.modelId = some m ∧
         (m.modelStatus ≠ ModelStatus.active ∨
          findMethod env s.methodId = none ∨
          (∃ meth, findMethod env s.methodId = some meth ∧
            m.modality ∉ meth.compatible) ∨
          payloadMatches decode m.modality s.payload = false))) →
      submit decode env s newId = (.error .invalidRequest, env) := by
  intro decode env s newId h
  rcases h with h1 | ⟨m, hm, hrest⟩
  · simp [submit, h1]
  · simp only [submit, hm]
    by_cases hact : m.modelStatus ≠ ModelStatus.active
    · rw [if_pos hact]
    · rw [if_neg hact]
      rcases hrest with hstat | h2 | ⟨meth, hmeth, hcompat⟩ | hshape
      · exact absurd hstat hact
      · simp [h2]
      · simp only [hmeth]
        rw [if_pos hcompat]
      · cases hmeth2 : findMethod env s.methodId with
        | none => simp
        | some meth =>
          simp only
          by_cases hc : m.modality ∉ meth.compatible
          · rw [if_pos hc]
          · rw [if_neg hc, if_pos hshape]

/-- C4 witness: submitting against an empty registry (nonexistent model id)
is rejected with `InvalidRequest` and the environment is unchanged. -/
theorem invalid_submission_rejected_witness :
    submit (fun _ => true) emptyEnv badSubmission "job-1"
      = (.error .invalidRequest, emptyEnv) :=
  invalid_submission_rejected (fun _ => true) emptyEnv badSubmission "job-1"
    (Or.inl (by decide))

/-- C5: finalizing a job as completed populates the result with
`attack_success` computed from the predictions: untargeted success is
exactly a changed prediction label, targeted success is exactly the
adversarial prediction equalling the target label. -/
theorem attack_success_criteria :
    ∀ (j : Job) (orig adv : String),
      (finalizeCompleted j orig adv).status = JobStatus.completed ∧
      (finalizeCompleted j orig adv).result
        = some { originalPrediction := orig, adversarialPrediction := adv,
                 attackSuccess := attackSuccess j.targetLabel orig adv } ∧
      (attackSuccess none orig adv = true ↔ adv ≠ orig) ∧
      (∀ t : String, attackSuccess (some t) orig adv = true ↔ adv = t) := by
  intro j orig adv
  refine ⟨rfl, rfl, ?_, ?_⟩
  · simp [attackSuccess]
  · intro t
    simp [attackSuccess]

/-- C6: delivering an already-terminal job to a worker again is a no-op:
the job record is returned unchanged and no webhook notification is
produced. -/
theorem finalization_idempotent :
    ∀ (j : Job) (outcome : StrategyOutcome),
      isTerminal j.status = true → workerDeliver j outcome = (j, []) := by
  intro j outcome h
  simp [workerDeliver, h]

/-- C6 witness: redelivering the completed `doneJob` with a fresh strategy
outcome changes nothing and sends nothing, although the job carries a
callback URL. -/
theorem finalization_idempotent_witness :
    isTerminal doneJob.status = true ∧
    workerDeliver doneJob (StrategyOutcome.ok "Positive" "Negative") = (doneJob, []) :=
  ⟨by decide,
   finalization_idempotent doneJob (StrategyOutcome.ok "Positive" "Negative") (by decide)⟩

/-- C10: the Time Series branch submits exactly when no comma-separated
token maps to `NaN` under `Number`; the empty token coerces to `0` rather
than `NaN`, so the empty input string (whose single token is the empty
string) is accepted as the numeric sequence `[0]`. -/
theorem timeseries_empty_token_accepted :
    (∀ input : String,
      (processTimeSeries input).isSome = true ↔
        ∀ t ∈ splitComma input.toList, (jsNumberChars t).isSome = true) ∧
    jsNumber "" = some 0 ∧
    processTimeSeries "" = some [0] := by
  refine ⟨?_, by decide, by decide⟩
  intro input
  have hc : (((splitComma input.toList).map jsNumberChars).all Option.isSome = true) ↔
      (∀ t ∈ splitComma input.toList, (jsNumberChars t).isSome = true) := by
    simp [List.all_map, List.all_eq_true, Function.comp]
  simp only [processTimeSeries]
  split
  next h => simpa using hc.mp h
  next h =>
    constructor
    · intro hfalse
      simp at hfalse
    · intro hp
      exact absurd (hc.mpr hp) h

end Sandbox
